import Mathlib

/-
Verification of the OpenPNM ViscousDrainage algorithm
(src/OpenPNM/Algorithms/__ViscousDrainage__.py) against its
natural-language specification.  The per-element data of the network and
of the algorithm state are embedded as functions from element indices to
rationals; machine floating point is replaced by exact rational
arithmetic.  The position-dependent capillary force function, stored by
the source as the instance field pc_func, is carried as a function-valued
field / parameter of the model.
-/

namespace ViscousDrainage

/-! ## Setup (source lines 35-132)

The source checks injection_rate and invading_phase and then evaluates
the expression at line 92, which reads the name defending_phase.  That
name is not a parameter of setup (the docstring documents it as one) and
is assigned only at line 93, so in Python it is an unbound local at the
point of the read and the call raises UnboundLocalError before any of
the per-element state at lines 95-130 is initialized. -/

inductive SetupError where
  | missingInjectionRate
  | missingInvadingPhase
  | unboundLocalDefendingPhase
  deriving DecidableEq, Repr

/-- Embedding of ViscousDrainage.setup, lines 86-92: the guard on
injection_rate, the guard on invading_phase, then the read of the
unassigned local defending_phase at line 92.  The success type is Unit
because control never reaches the state-initializing lines 95-130. -/
def setup_vd (invading_phase : Option ℕ) (injection_rate : Option ℚ) :
    Except SetupError Unit :=
  if injection_rate.isNone then Except.error SetupError.missingInjectionRate
  else if invading_phase.isNone then Except.error SetupError.missingInvadingPhase
  else Except.error SetupError.unboundLocalDefendingPhase

/-! ## Network and algorithm state -/

/-- Read-only network data consumed by the algorithm: per-throat endpoint
pores (throat.conns), geometric data, and the neighbor-throat query. -/
structure VDNet where
  Nt : ℕ
  Np : ℕ
  conns : ℕ → ℕ × ℕ
  th_volume : ℕ → ℚ
  th_area : ℕ → ℚ
  th_length : ℕ → ℚ
  p_volume : ℕ → ℚ
  neighbor_throats : ℕ → List ℕ

/-- Mutable per-element state of the solver at the start of one step:
meniscus lists, contested flags, invasion fractions, the pressure field
returned by the linear solve, throat conductances, supply factors,
per-throat maximum capillary pressure, and the scalar configuration. -/
structure VDState where
  menisci : ℕ → List ℚ
  th_contested : ℕ → Bool
  p_contested : ℕ → Bool
  th_inv_frac : ℕ → ℚ
  p_inv_frac : ℕ → ℚ
  p_invaded : ℕ → Bool
  pressure : ℕ → ℚ
  conductance : ℕ → ℚ
  sup_fact : ℕ → ℚ
  max_pc : ℕ → ℚ
  pc_func : ℚ → ℚ
  inj_rate : ℚ
  net_vol : ℚ
  sat_tol : ℚ

/-- Embedding of _get_supply_facts (lines 589-601) for one throat: when
the reference pore is the higher-indexed endpoint the stored supply
factor is flipped once per meniscus present. -/
def get_supply_fact (net : VDNet) (st : VDState) (th refPore : ℕ) : ℚ :=
  if refPore = (net.conns th).2 then
    st.sup_fact th * (-1) ^ (st.menisci th).length
  else
    st.sup_fact th

/-- The accumulation loop of _sum_fpcap (lines 580-586): starting sign f,
each meniscus contributes f * pc(x) * maxpc and the sign is negated
between menisci. -/
def fpcap_walk (pc : ℚ → ℚ) (maxpc : ℚ) : ℚ → List ℚ → ℚ
  | _, [] => 0
  | f, x :: xs => f * pc x * maxpc + fpcap_walk pc maxpc (-f) xs

/-- Embedding of _sum_fpcap (lines 570-587): the meniscus list is walked
in reverse when the reference pore is the higher-indexed endpoint, and
the starting sign is the negated supply factor as seen from the
reference pore. -/
def sum_fpcap (net : VDNet) (st : VDState) (th refPore : ℕ) : ℚ :=
  let ms := if refPore = (net.conns th).2 then (st.menisci th).reverse
            else st.menisci th
  fpcap_walk st.pc_func (st.max_pc th) (-(get_supply_fact net st th refPore)) ms

/-- The signed volumetric throat flow of lines 366-372 (also recomputed at
lines 397-403 and 519-524): q = -g * (pr1 - pr2 + fpc) with fpc summed
relative to the lower-indexed endpoint; a negative value is flow moving
away from the lower-indexed pore. -/
def throat_q (net : VDNet) (st : VDState) (th : ℕ) : ℚ :=
  -(st.conductance th) *
    (st.pressure (net.conns th).1 - st.pressure (net.conns th).2 +
      sum_fpcap net st th (net.conns th).1)

/-- Net invading-phase flow into a contested pore, lines 389-410: over all
neighbor throats, take the throat flow oriented toward the pore and add
it when the supply factor seen from the pore is positive. -/
def pore_qsum (net : VDNet) (st : VDState) (p : ℕ) : ℚ :=
  (net.neighbor_throats p).foldl
    (fun qsum th =>
      let q := throat_q net st th
      let q := if p = (net.conns th).2 then -q else q
      if get_supply_fact net st th p > 0 then qsum + q else qsum)
    0

/-- Embedding of _set_dx_max (lines 603-626).  The source indexes the
first and last meniscus unconditionally; a contested throat always holds
at least one meniscus, so the default value 0 used by getD on an empty
list is never consulted in a reachable state. -/
def set_dx_max (q : ℚ) (men : List ℚ) : ℚ :=
  let x := if q < 0 then men.getLast?.getD 0 else men.headD 0
  if q < 0 ∧ x > 1/2 then
    let d1 : ℚ := if men.headD 0 < 1/2 then 3/100 else 30/100
    if d1 > 1 - x then 1 - x else d1
  else if q > 0 ∧ x < 1/2 then
    let d1 : ℚ := if men.getLast?.getD 0 > 1/2 then 3/100 else 30/100
    if d1 > x then x else d1
  else
    3/100

/-- Embedding of _set_dv_max (lines 628-638). -/
def set_dv_max (frac q : ℚ) : ℚ :=
  if q > 0 ∧ 1 - frac < 1/4 then 1 - frac
  else if q < 0 ∧ frac < 1/4 then frac
  else 1/4

/-- Contested throat indices, the iteration domain of lines 360, 375
and 427. -/
def contested_throats (net : VDNet) (st : VDState) : List ℕ :=
  (List.range net.Nt).filter (fun th => st.th_contested th)

/-- Contested pore indices, the iteration domain of lines 385 and 424. -/
def contested_pores (net : VDNet) (st : VDState) : List ℕ :=
  (List.range net.Np).filter (fun p => st.p_contested p)

/-- One iteration of the first loop of _calculate_dt (lines 360-364): a
zero-volume contested throat forces dt to zero. -/
def dt_step_zero_vol (net : VDNet) (dt : ℚ) (th : ℕ) : ℚ :=
  if net.th_volume th = 0 then 0 else dt

/-- One iteration of the second loop of _calculate_dt (lines 375-382):
shrink dt to the time for the meniscus to travel dx_max, skipping
throats with zero velocity. -/
def dt_step_throat (net : VDNet) (st : VDState) (dt : ℚ) (th : ℕ) : ℚ :=
  let dxm := set_dx_max (throat_q net st th) (st.menisci th)
  let v := throat_q net st th / net.th_area th
  if v = 0 then dt
  else
    let dtn := dxm * net.th_length th / |v|
    if dtn < dt then dtn else dt

/-- One iteration of the third loop of _calculate_dt (lines 385-416): a
zero-volume contested pore forces dt to zero, then dt shrinks to the
time for the pore to change by dv_max, skipping pores with zero net
flow. -/
def dt_step_pore (net : VDNet) (st : VDState) (dt : ℚ) (p : ℕ) : ℚ :=
  let dt1 := if net.p_volume p = 0 then 0 else dt
  let q := pore_qsum net st p
  if q = 0 then dt1
  else
    let dtn := set_dv_max (st.p_inv_frac p) q * net.p_volume p / |q|
    if dtn < dt1 then dtn else dt1

/-- Embedding of _calculate_dt (lines 348-417): the initial candidate dt
fills one percent of the network volume at the injection rate, then the
three loops run in order over the contested elements. -/
def calculate_dt (net : VDNet) (st : VDState) : ℚ :=
  let dt0 := st.net_vol / st.inj_rate * (1/100)
  let dt1 := (contested_throats net st).foldl (dt_step_zero_vol net) dt0
  let dt2 := (contested_throats net st).foldl (dt_step_throat net st) dt1
  (contested_pores net st).foldl (dt_step_pore net st) dt2

/-! ## Interface advancer -/

/-- The uniform meniscus shift of line 432: every position moves by dx. -/
def shift_menisci (dx : ℚ) (men : List ℚ) : List ℚ :=
  men.map (fun m => m + dx)

/-- Embedding of _advance_zero_vol_throat (lines 640-657), taking the
stored flow value th_q as an argument.  Returns the new meniscus list
and the new throat invasion fraction. -/
def advance_zero_vol_throat (net : VDNet) (st : VDState) (th : ℕ) (thq : ℚ) :
    List ℚ × ℚ :=
  let p1 := (net.conns th).1
  let p2 := (net.conns th).2
  if thq < 0 then
    ([1], if st.p_invaded p1 then 1 else 0)
  else
    ([0], if st.p_invaded p2 then 1 else 0)

/-- Result of the per-throat body of _advance_interface: the updated
meniscus list, throat invasion fraction, supply factor and contested
flag, plus the optional neighbor-pore adjustment of lines 466-471 (the
pore receives inv_frac += -sat_adj and is marked contested). -/
structure ThroatAdvance where
  menisci : List ℚ
  th_inv_frac : ℚ
  sup_fact : ℚ
  th_contested : Bool
  pore_adjust : Option (ℕ × ℚ)
  deriving DecidableEq, Repr

/-- The boundary-crossing handling of lines 450-476, applied to the
meniscus list and fraction that result from the shift (and, for
zero-volume throats, the degenerate rule).  The source indexes the last
and first meniscus unconditionally; the getD default 0 is never consulted
for a contested throat, which always holds a meniscus. -/
def advance_boundary (p1 p2 : ℕ) (satTol supFact : ℚ)
    (men2 : List ℚ) (frac2 v2 : ℚ) : ThroatAdvance :=
  if men2.getLast?.getD 0 > 1 - satTol ∧ v2 < 0 then
    let sat_adj := (1 - men2.getLast?.getD 0) * supFact
    { menisci := men2.dropLast
      th_inv_frac := frac2 + sat_adj
      sup_fact := supFact
      th_contested := !men2.dropLast.isEmpty
      pore_adjust := some (p2, sat_adj) }
  else if men2.headD 0 < satTol ∧ v2 > 0 then
    let sat_adj := men2.headD 0 * supFact
    { menisci := men2.tail
      th_inv_frac := frac2 + sat_adj
      sup_fact := -supFact
      th_contested := !men2.tail.isEmpty
      pore_adjust := some (p1, sat_adj) }
  else
    { menisci := men2
      th_inv_frac := frac2
      sup_fact := supFact
      th_contested := !men2.isEmpty
      pore_adjust := none }

/-- Per-throat body of _advance_interface (lines 427-476), taking the
stored flow value th_q and the step dt: velocity and displacement, the
uniform shift, the parity-guarded fraction change, the zero-volume
degenerate rule of lines 440-444 (which also recomputes the velocity
from the collapse displacement), then the boundary handling. -/
def advance_throat (net : VDNet) (st : VDState) (th : ℕ) (thq dt : ℚ) :
    ThroatAdvance :=
  let p1 := (net.conns th).1
  let p2 := (net.conns th).2
  let v := thq / net.th_area th
  let dx := -v * dt / net.th_length th
  let men1 := shift_menisci dx (st.menisci th)
  let ph_frac := if men1.length % 2 = 0 then 0 else dx * st.sup_fact th
  let frac1 := st.th_inv_frac th + ph_frac
  let men2 := if net.th_volume th = 0
              then (advance_zero_vol_throat net st th thq).1 else men1
  let frac2 := if net.th_volume th = 0
               then (advance_zero_vol_throat net st th thq).2 else frac1
  let v2 := if net.th_volume th = 0
            then -(men2.headD 0 - men1.headD 0) else v
  advance_boundary p1 p2 st.sat_tol (st.sup_fact th) men2 frac2 v2

/-- Per-throat body of _set_menisci (lines 682-699), taking whether the
base pore is the higher-indexed endpoint, the stored flow value, the
meniscus list and the supply factor.  Returns the new meniscus list, the
new supply factor, and whether the contested flag is set. -/
def set_menisci_throat (baseIsP2 : Bool) (thq : ℚ) (men : List ℚ)
    (supFact : ℚ) : List ℚ × ℚ × Bool :=
  if baseIsP2 then
    if thq < 0 then (men, supFact, false)
    else (men ++ [1], supFact, true)
  else
    if thq > 0 then (men, supFact, false)
    else (0 :: men, -supFact, true)

/-! ## Conductance updater -/

/-- Per-throat body of _update_coefficient_matrix (lines 319-327): the
defending and invading viscosities are averaged over the two endpoint
pores, M is their ratio, and the new conductance is
(1 - frac + frac * M) times the base conductance gdef. -/
def update_coefficient_matrix (net : VDNet) (dvisc ivisc : ℕ → ℚ)
    (th_inv_frac gdef : ℕ → ℚ) (th : ℕ) : ℚ :=
  let p1 := (net.conns th).1
  let p2 := (net.conns th).2
  let dv := (dvisc p1 + dvisc p2) / 2
  let iv := (ivisc p1 + ivisc p2) / 2
  let M := dv / iv
  let frac := th_inv_frac th
  (1 - frac + frac * M) * gdef th

/-! ## Real-valued capillary sum

For the claim about the capillary contribution the model is repeated
over the real numbers, since the capillary force function installed by
setup at line 128 is x maps to sin(pi x).  The function is passed as a
parameter, mirroring the pc_func instance field. -/

/-- The accumulation loop of _sum_fpcap over the reals. -/
def fpcap_walk_real (pc : ℝ → ℝ) (maxpc : ℝ) : ℝ → List ℝ → ℝ
  | _, [] => 0
  | f, x :: xs => f * pc x * maxpc + fpcap_walk_real pc maxpc (-f) xs

/-- Supply factor as seen from the reference pore, over the reals
(mirrors _get_supply_facts for one throat). -/
def get_supply_fact_real (supFact : ℝ) (menLen : ℕ) (refIsP2 : Bool) : ℝ :=
  if refIsP2 then supFact * (-1) ^ menLen else supFact

/-- Embedding of _sum_fpcap (lines 570-587) over the reals, with the
capillary force function as a parameter. -/
def sum_fpcap_real (pc : ℝ → ℝ) (maxpc supFact : ℝ) (men : List ℝ)
    (refIsP2 : Bool) : ℝ :=
  let ms := if refIsP2 then men.reverse else men
  fpcap_walk_real pc maxpc (-(get_supply_fact_real supFact men.length refIsP2)) ms

/-- The alternating signed sum named by the specification: walk the given
list with a starting sign s, each element contributing s times its
weight, the sign negating from one element to the next. -/
def alt_signed_sum (w : ℝ → ℝ) : ℝ → List ℝ → ℝ
  | _, [] => 0
  | s, m :: ms => s * w m + alt_signed_sum w (-s) ms

/-! ## Outer-loop breakthrough bookkeeping (lines 246-295)

The breakthrough check, the steady-state check and the step cap are
embedded exactly; the remainder of one loop iteration (matrix update,
solve, dt, advance, outflow accounting) only writes the physics fields
and is abstracted as a function on them. -/

/-- The fields of the solver state that one iteration of physics (solve,
advance, outflow accounting) rewrites before the checks run: the
accumulated time, the outlet-pore invasion fractions, and the
invading-phase outflow rate. -/
structure BTPhys where
  total_time : ℚ
  outlet_frac : List ℚ
  inv_out_rate : ℚ

/-- The loop state seen by the checks: the physics fields, the step
counter, and the breakthrough record (time initialized to -1 by setup,
step count to 0). -/
structure BTState where
  phys : BTPhys
  ts_num : ℕ
  break_through_time : ℚ
  break_through_steps : ℕ

/-- The breakthrough test of line 282: some outlet pore has
inv_frac > 1 - sat_tol. -/
def breakthroughTest (satTol : ℚ) (s : BTState) : Bool :=
  s.phys.outlet_frac.any (fun f => decide (1 - satTol < f))

/-- The recording guard of line 283: the test fires and no breakthrough
has been recorded yet. -/
def recordsAt (satTol : ℚ) (s : BTState) : Bool :=
  breakthroughTest satTol s && decide (s.break_through_time < 0)

/-- The recording of lines 284-285; the break at line 286 is commented
out in the source, so recording leaves the loop control untouched. -/
def btRecord (satTol : ℚ) (s : BTState) : BTState :=
  if recordsAt satTol s then
    { s with break_through_time := s.phys.total_time
             break_through_steps := s.ts_num }
  else s

/-- The loop exit tests of lines 288-293: the steady-state test on the
invading outflow rate, then the step cap. -/
def stopCheck (injRate : ℚ) (maxSteps : ℕ) (s : BTState) : Bool :=
  decide (|s.phys.inv_out_rate - injRate| / injRate < 1 / 1000000000) ||
    decide (s.ts_num > maxSteps)

/-- The physics part of the iteration applied to the loop state. -/
def applyPhys (phys : BTPhys → BTPhys) (s : BTState) : BTState :=
  { s with phys := phys s.phys }

/-- One iteration of the outer loop as seen by the breakthrough record:
physics, then the breakthrough check, then the step counter increment of
line 295. -/
def vdIter (phys : BTPhys → BTPhys) (satTol : ℚ) (s : BTState) : BTState :=
  let s2 := btRecord satTol (applyPhys phys s)
  { s2 with ts_num := s2.ts_num + 1 }

/-- The loop state before iteration n. -/
def btTrace (phys : BTPhys → BTPhys) (satTol : ℚ) (s0 : BTState) (n : ℕ) :
    BTState :=
  (vdIter phys satTol)^[n] s0

/-- Whether iteration n records breakthrough: the recording guard holds
on the state it checks, namely the state after the physics of that
iteration. -/
def recAtStep (phys : BTPhys → BTPhys) (satTol : ℚ) (s0 : BTState) (n : ℕ) :
    Bool :=
  recordsAt satTol (applyPhys phys (btTrace phys satTol s0 n))

/-! ## Inlet and outlet configuration (lines 134-204) -/

/-- The mode argument of set_inlets and set_outlets.  The source compares
mode against the text remove with an identity test; for the literal
arguments actually passed this coincides with equality. -/
inductive PoreSetMode where
  | add
  | overwrite
  | clear
  | remove
  deriving DecidableEq, Repr

/-- The inlet and outlet flag arrays, one Boolean per pore. -/
structure IOFlags where
  inlets : List Bool
  outlets : List Bool
  deriving DecidableEq, Repr

/-- Resetting a whole flag array to false (lines 142 and 190). -/
def clear_flags (l : List Bool) : List Bool :=
  l.map (fun _ => false)

/-- The fancy-indexed flag assignment flags[Ps] = v, walking the array
with its index. -/
def assign_from (ps : List ℕ) (v : Bool) : ℕ → List Bool → List Bool
  | _, [] => []
  | i, b :: bs => (if i ∈ ps then v else b) :: assign_from ps v (i + 1) bs

/-- The flag assignment of lines 151 and 198. -/
def assign (ps : List ℕ) (v : Bool) (l : List Bool) : List Bool :=
  assign_from ps v 0 l

/-- The overlap test of lines 144 and 192: a positive sum over a Boolean
selection means some requested pore already carries the opposite flag. -/
def overlap (flags : List Bool) (ps : List ℕ) : Bool :=
  ps.any (fun p => flags.getD p false)

/-- The flag-and-error fragment of set_inlets (lines 134-151): the clear
for modes clear and overwrite happens before the overlap check, so the
raise at line 145 leaves the cleared array behind.  The Boolean result
records whether the exception was raised; the downstream effects of a
successful call (invasion state, boundary conditions, menisci) do not
touch the flag arrays. -/
def set_inlets (st : IOFlags) (ps : List ℕ) (mode : PoreSetMode) :
    IOFlags × Bool :=
  let inl0 := if mode = PoreSetMode.clear ∨ mode = PoreSetMode.overwrite
              then clear_flags st.inlets else st.inlets
  if overlap st.outlets ps then
    ({ inlets := inl0, outlets := st.outlets }, true)
  else
    let bv := mode ≠ PoreSetMode.remove
    ({ inlets := assign ps bv inl0, outlets := st.outlets }, false)

/-- The flag-and-error fragment of set_outlets (lines 183-198), symmetric
to set_inlets. -/
def set_outlets (st : IOFlags) (ps : List ℕ) (mode : PoreSetMode) :
    IOFlags × Bool :=
  let out0 := if mode = PoreSetMode.clear ∨ mode = PoreSetMode.overwrite
              then clear_flags st.outlets else st.outlets
  if overlap st.inlets ps then
    ({ inlets := st.inlets, outlets := out0 }, true)
  else
    let bv := mode ≠ PoreSetMode.remove
    ({ inlets := st.inlets, outlets := assign ps bv out0 }, false)

/-! ## The run precheck (lines 206-217) -/

/-- Modelled from the spec: assigning the scalar False to a per-pore key
(lines 95-96) initializes a per-element flag array, one entry per pore,
all false (the broadcast is performed by the dictionary base class,
which is outside the excerpted sources). -/
def setup_flag_array (np : ℕ) : List Bool :=
  List.replicate np false

/-- The guards at the top of run (lines 212-217): each one tests the size
of the flag array, not whether any flag is set; the result names which
exception is raised, none when both guards pass. -/
def run_precheck (inlets outlets : List Bool) : Option ℕ :=
  if inlets.length = 0 then some 1
  else if outlets.length = 0 then some 2
  else none

/-! ## Concrete fixtures used to evaluate the theorems -/

/-- A two-pore, one-throat network whose single throat has zero volume. -/
def netW : VDNet where
  Nt := 1
  Np := 2
  conns := fun _ => (0, 1)
  th_volume := fun _ => 0
  th_area := fun _ => 1
  th_length := fun _ => 1
  p_volume := fun _ => 1
  neighbor_throats := fun _ => [0]

/-- A state for netW in which the single throat is contested with one
interior meniscus, pore 0 is invaded, and the pressure drop drives flow
from pore 0 toward pore 1 (the computed throat flow is -1). -/
def stW : VDState where
  menisci := fun _ => [1/2]
  th_contested := fun _ => true
  p_contested := fun _ => false
  th_inv_frac := fun _ => 0
  p_inv_frac := fun _ => 0
  p_invaded := fun p => decide (p = 0)
  pressure := fun p => if p = 0 then 1 else 0
  conductance := fun _ => 1
  sup_fact := fun _ => -1
  max_pc := fun _ => 1
  pc_func := fun _ => 0
  inj_rate := 1
  net_vol := 1
  sat_tol := 1/1000000

/-! ## Theorems -/

/-- C1: setup rejects a missing injection rate and a missing invading
phase, but with both supplied it does not complete and initialize the
per-element state: line 92 reads the local defending_phase, which is not
a parameter and is first assigned at line 93, so the call raises before
reaching the initialization at lines 95-130. -/
theorem setup_unbound_defending_phase :
    setup_vd (some 0) none = Except.error SetupError.missingInjectionRate ∧
    setup_vd none (some 1) = Except.error SetupError.missingInvadingPhase ∧
    setup_vd (some 0) (some 1)
      = Except.error SetupError.unboundLocalDefendingPhase :=
  ⟨rfl, rfl, rfl⟩

/-- C4: at every conductance update the new throat conductance equals the
base conductance times (1 - f + f * M), with M the ratio of the
pore-averaged defending to invading viscosity; at f = 0 it is exactly
the base conductance and at f = 1 exactly base times M. -/
theorem conductance_linear_mixing (net : VDNet) (dvisc ivisc fr gdef : ℕ → ℚ)
    (th : ℕ) :
    update_coefficient_matrix net dvisc ivisc fr gdef th
      = gdef th * (1 - fr th + fr th *
          ((dvisc (net.conns th).1 + dvisc (net.conns th).2) / 2 /
            ((ivisc (net.conns th).1 + ivisc (net.conns th).2) / 2))) ∧
    (fr th = 0 →
      update_coefficient_matrix net dvisc ivisc fr gdef th = gdef th) ∧
    (fr th = 1 →
      update_coefficient_matrix net dvisc ivisc fr gdef th
        = gdef th * ((dvisc (net.conns th).1 + dvisc (net.conns th).2) / 2 /
            ((ivisc (net.conns th).1 + ivisc (net.conns th).2) / 2))) := by
  refine ⟨?_, ?_, ?_⟩ <;> simp only [update_coefficient_matrix]
  · ring
  · intro h; rw [h]; ring
  · intro h; rw [h]; ring

/-- Evaluation of the conductance update on a concrete throat with f = 0,
through the theorem. -/
theorem conductance_linear_mixing_witness :
    update_coefficient_matrix netW (fun _ => 3) (fun _ => 2) (fun _ => 0)
      (fun _ => 7) 0 = 7 :=
  (conductance_linear_mixing netW (fun _ => 3) (fun _ => 2) (fun _ => 0)
    (fun _ => 7) 0).2.1 rfl

/-- The fpcap accumulation loop is the alternating signed sum of the
per-meniscus weights. -/
theorem fpcap_walk_real_eq_alt (pc : ℝ → ℝ) (maxpc f : ℝ) (l : List ℝ) :
    fpcap_walk_real pc maxpc f l = alt_signed_sum (fun m => pc m * maxpc) f l := by
  induction l generalizing f with
  | nil => rfl
  | cons x xs ih =>
    simp only [fpcap_walk_real, alt_signed_sum, ih, mul_assoc]

/-- C5: with the capillary force function installed by setup, sum_fpcap
is the alternating sum, over the menisci walked from the reference-pore
end outward (reversed when the reference pore is the higher-indexed
endpoint), of sign times sin(pi m) times the max capillary pressure,
with the starting sign the negated supply factor as seen from the
reference pore and the sign negating at each successive meniscus. -/
theorem sum_fpcap_alternating (maxpc sf : ℝ) (men : List ℝ) (refIsP2 : Bool) :
    sum_fpcap_real (fun x => Real.sin (Real.pi * x)) maxpc sf men refIsP2 =
      alt_signed_sum (fun m => Real.sin (Real.pi * m) * maxpc)
        (-(get_supply_fact_real sf men.length refIsP2))
        (if refIsP2 then men.reverse else men) := by
  unfold sum_fpcap_real
  exact fpcap_walk_real_eq_alt _ _ _ _

/-- C6: the dx_max policy of _set_dx_max, characterized case by case:
0.03 by default; 0.30 for a driving meniscus past the midpoint moving
away from the reference pore unless the meniscus at the other end is
still before the midpoint, capped so the step cannot pass position 1;
symmetrically toward the reference pore, capped at position 0. -/
theorem dx_max_policy (q : ℚ) (men : List ℚ) (_hne : men ≠ []) :
    (q = 0 → set_dx_max q men = 3/100) ∧
    (q < 0 → men.getLast?.getD 0 ≤ 1/2 → set_dx_max q men = 3/100) ∧
    (q < 0 → 1/2 < men.getLast?.getD 0 →
      set_dx_max q men =
        min (if men.headD 0 < 1/2 then 3/100 else 30/100)
          (1 - men.getLast?.getD 0)) ∧
    (q > 0 → 1/2 ≤ men.headD 0 → set_dx_max q men = 3/100) ∧
    (q > 0 → men.headD 0 < 1/2 →
      set_dx_max q men =
        min (if 1/2 < men.getLast?.getD 0 then 3/100 else 30/100)
          (men.headD 0)) := by
  refine ⟨?_, ?_, ?_, ?_, ?_⟩
  · intro hq
    subst hq
    simp [set_dx_max]
  · intro hq hx
    have hq' : ¬q > 0 := by linarith
    have hx' : ¬(men.getLast?.getD 0 > 1/2) := by linarith
    simp [set_dx_max, hq, hq', hx']
    intro h2
    linarith
  · intro hq hx
    have hq' : ¬q > 0 := by linarith
    simp only [set_dx_max, if_pos hq]
    rw [if_pos ⟨hq, hx⟩]
    generalize (if men.headD 0 < (1:ℚ)/2 then (3:ℚ)/100 else 30/100) = d1
    split_ifs with hd
    · exact (min_eq_right (le_of_lt hd)).symm
    · exact (min_eq_left (not_lt.mp hd)).symm
  · intro hq hx
    have hq' : ¬q < 0 := by linarith
    have hx' : ¬(men.headD 0 < 1/2) := by linarith
    simp [set_dx_max, hq, hq', hx']
    intro h2
    rw [List.headD_eq_head?] at hx
    linarith
  · intro hq hx
    have hq' : ¬q < 0 := by linarith
    simp only [set_dx_max, if_neg hq']
    rw [if_neg (by rintro ⟨h1, -⟩; exact hq' h1), if_pos ⟨hq, hx⟩]
    generalize (if (1:ℚ)/2 < men.getLast?.getD 0 then (3:ℚ)/100 else 30/100) = d1
    split_ifs with hd
    · exact (min_eq_right (le_of_lt hd)).symm
    · exact (min_eq_left (not_lt.mp hd)).symm

/-- Evaluation of the dx_max policy default case on a concrete meniscus
list, through the theorem. -/
theorem dx_max_policy_witness : set_dx_max 0 [1/2] = 3/100 :=
  (dx_max_policy 0 [1/2] (by decide)).1 rfl

/-- C9 counterexample: with mode overwrite, set_inlets on a pore that is
already an outlet raises, but the stored inlet flags are not left as
they were: the clear at line 142 runs before the overlap check at
line 144. -/
theorem set_inlets_overwrite_counterexample :
    (set_inlets ⟨[true, false], [false, true]⟩ [1] PoreSetMode.overwrite).2
        = true ∧
    (set_inlets ⟨[true, false], [false, true]⟩ [1]
        PoreSetMode.overwrite).1.inlets ≠ [true, false] := by
  decide

/-- C9 amended: set_inlets raises exactly when a requested pore is an
outlet, and set_outlets exactly when a requested pore is an inlet; the
opposite-role flag array is always left unchanged; on failure the
same-role array is unchanged for modes add and remove, but for modes
clear and overwrite it has already been reset to all false. -/
theorem set_inlets_outlets_amended (st : IOFlags) (ps : List ℕ)
    (mode : PoreSetMode) :
    ((set_inlets st ps mode).2 = overlap st.outlets ps) ∧
    ((set_inlets st ps mode).1.outlets = st.outlets) ∧
    ((set_inlets st ps mode).2 = true →
      mode = PoreSetMode.add ∨ mode = PoreSetMode.remove →
      (set_inlets st ps mode).1.inlets = st.inlets) ∧
    ((set_inlets st ps mode).2 = true →
      mode = PoreSetMode.clear ∨ mode = PoreSetMode.overwrite →
      (set_inlets st ps mode).1.inlets = clear_flags st.inlets) ∧
    ((set_outlets st ps mode).2 = overlap st.inlets ps) ∧
    ((set_outlets st ps mode).1.inlets = st.inlets) ∧
    ((set_outlets st ps mode).2 = true →
      mode = PoreSetMode.add ∨ mode = PoreSetMode.remove →
      (set_outlets st ps mode).1.outlets = st.outlets) ∧
    ((set_outlets st ps mode).2 = true →
      mode = PoreSetMode.clear ∨ mode = PoreSetMode.overwrite →
      (set_outlets st ps mode).1.outlets = clear_flags st.outlets) := by
  refine ⟨?_, ?_, ?_, ?_, ?_, ?_, ?_, ?_⟩ <;>
    cases mode <;>
    simp only [set_inlets, set_outlets] <;>
    cases hov1 : overlap st.outlets ps <;>
    cases hov2 : overlap st.inlets ps <;>
    simp_all

/-- Evaluation of the amended claim on a concrete failing add-mode call,
through the theorem: the inlet flags are unchanged. -/
theorem set_inlets_outlets_amended_witness :
    (set_inlets ⟨[true], [true]⟩ [0] PoreSetMode.add).1.inlets = [true] :=
  (set_inlets_outlets_amended ⟨[true], [true]⟩ [0] PoreSetMode.add).2.2.1
    (by decide) (Or.inl rfl)

/-- C10: after the setup initialization of the per-pore flag arrays on a
network with at least one pore, both guards at the top of run pass even
though no inlet or outlet was ever set, because each guard tests the
size of the flag array, which is the number of pores, not whether any
flag is true. -/
theorem run_precheck_passes (np : ℕ) (h : 1 ≤ np) :
    run_precheck (setup_flag_array np) (setup_flag_array np) = none ∧
    ∀ b ∈ setup_flag_array np, b = false := by
  constructor
  · have hne : np ≠ 0 := by omega
    simp [run_precheck, setup_flag_array, hne]
  · intro b hb
    exact List.eq_of_mem_replicate hb

/-- Evaluation of the run precheck on a three-pore network, through the
theorem. -/
theorem run_precheck_passes_witness :
    run_precheck (setup_flag_array 3) (setup_flag_array 3) = none :=
  (run_precheck_passes 3 (by norm_num)).1

/-- The uniform shift of line 432 preserves ascending order. -/
theorem sorted_shift_menisci (dx : ℚ) (men : List ℚ)
    (h : men.Sorted (· ≤ ·)) : (shift_menisci dx men).Sorted (· ≤ ·) := by
  unfold shift_menisci
  exact List.pairwise_map.mpr (h.imp (fun hab => by linarith))

/-- The boundary handling of lines 450-476 preserves ascending order: it
returns the list unchanged, or with the outermost or innermost meniscus
removed. -/
theorem sorted_advance_boundary (p1 p2 : ℕ) (satTol supFact : ℚ)
    (men2 : List ℚ) (frac2 v2 : ℚ) (h : men2.Sorted (· ≤ ·)) :
    ((advance_boundary p1 p2 satTol supFact men2 frac2 v2).menisci).Sorted
      (· ≤ ·) := by
  unfold advance_boundary
  split_ifs <;> dsimp only
  · exact List.Pairwise.sublist (List.dropLast_sublist men2) h
  · exact List.Pairwise.sublist (List.tail_sublist men2) h
  · exact h

/-- C8: ascending meniscus order is preserved by the per-throat advance
step (uniform shift, zero-volume collapse, boundary deletion), and by
the meniscus creation of _set_menisci, which appends position 1 at the
high end or inserts position 0 at the low end and therefore relies on
all positions lying inside the unit interval. -/
theorem menisci_sorted_preserved (net : VDNet) (st : VDState) (th : ℕ)
    (thq dt : ℚ) (b : Bool) (q sf : ℚ) (men : List ℚ)
    (h1 : (st.menisci th).Sorted (· ≤ ·))
    (h2 : men.Sorted (· ≤ ·))
    (hlo : ∀ m ∈ men, 0 ≤ m) (hhi : ∀ m ∈ men, m ≤ 1) :
    ((advance_throat net st th thq dt).menisci).Sorted (· ≤ ·) ∧
    ((set_menisci_throat b q men sf).1).Sorted (· ≤ ·) := by
  constructor
  · unfold advance_throat
    dsimp only
    apply sorted_advance_boundary
    split_ifs with hv
    · unfold advance_zero_vol_throat
      split_ifs <;> simp
    · exact sorted_shift_menisci _ _ h1
  · unfold set_menisci_throat
    cases b
    · rw [if_neg (by simp)]
      split_ifs with hq
      · exact h2
      · rw [List.sorted_cons]
        exact ⟨hlo, h2⟩
    · rw [if_pos rfl]
      split_ifs with hq
      · exact h2
      · rw [List.Sorted, List.pairwise_append]
        refine ⟨h2, List.pairwise_singleton _ _, ?_⟩
        intro a ha c hc
        rw [List.mem_singleton] at hc
        subst hc
        exact hhi a ha

/-- Evaluation of the meniscus-creation order preservation on a concrete
sorted list, through the theorem. -/
theorem menisci_sorted_preserved_witness :
    ((set_menisci_throat true 1 [1/4, 3/4] 1).1).Sorted (· ≤ ·) :=
  (menisci_sorted_preserved netW stW 0 1 0 true 1 1 [1/4, 3/4]
    (by simp [stW]) (by norm_num [List.sorted_cons])
    (by norm_num) (by norm_num)).2

/-- A fold whose step fixes zero stays at zero. -/
theorem foldl_zero_keep (g : ℚ → ℕ → ℚ) (l : List ℕ)
    (h : ∀ x ∈ l, g 0 x = 0) : l.foldl g 0 = 0 := by
  induction l with
  | nil => rfl
  | cons a t ih =>
    rw [List.foldl_cons, h a (List.mem_cons_self a t)]
    exact ih (fun x hx => h x (List.mem_cons_of_mem a hx))

/-- The first loop of _calculate_dt returns zero as soon as some listed
throat has zero volume. -/
theorem foldl_zero_vol_eq_zero (net : VDNet) (l : List ℕ) (d : ℚ) (th : ℕ)
    (hth : th ∈ l) (h : net.th_volume th = 0) :
    l.foldl (dt_step_zero_vol net) d = 0 := by
  induction l generalizing d with
  | nil => cases hth
  | cons a t ih =>
    rw [List.foldl_cons]
    rcases List.mem_cons.mp hth with rfl | hmem
    · rw [show dt_step_zero_vol net d th = 0 from by
        unfold dt_step_zero_vol; rw [if_pos h]]
      exact foldl_zero_keep _ _ (fun x _ => by
        unfold dt_step_zero_vol; split <;> rfl)
    · exact ih _ hmem

/-- With all meniscus positions inside the unit interval, the dx_max
policy never returns a negative travel fraction. -/
theorem set_dx_max_nonneg (q : ℚ) (men : List ℚ)
    (h : ∀ m ∈ men, 0 ≤ m ∧ m ≤ 1) : 0 ≤ set_dx_max q men := by
  have hlast : 0 ≤ men.getLast?.getD 0 ∧ men.getLast?.getD 0 ≤ 1 := by
    rcases men with _ | ⟨a, l⟩
    · norm_num
    · rw [List.getLast?_eq_getLast _ (List.cons_ne_nil a l), Option.getD_some]
      exact h _ (List.getLast_mem _)
  have hhead : 0 ≤ men.headD 0 ∧ men.headD 0 ≤ 1 := by
    rcases men with _ | ⟨a, l⟩
    · norm_num
    · simpa using h a (List.mem_cons_self a l)
  have hb : men.head?.getD 0 = men.headD 0 := (List.headD_eq_head? men 0).symm
  unfold set_dx_max
  by_cases hq : q < 0
  · rw [if_pos hq]
    by_cases hx : men.getLast?.getD 0 > 1/2
    · rw [if_pos ⟨hq, hx⟩]
      by_cases hh : men.headD 0 < 1/2
      · rw [if_pos hh]
        dsimp only
        split_ifs <;> linarith [hlast.2]
      · rw [if_neg hh]
        dsimp only
        split_ifs <;> linarith [hlast.2]
    · rw [if_neg (by rintro ⟨-, hc⟩; exact hx hc),
        if_neg (by rintro ⟨hq2, -⟩; linarith)]
      norm_num
  · rw [if_neg hq, if_neg (by rintro ⟨hc, -⟩; exact hq hc)]
    by_cases hq2 : q > 0
    · by_cases hx : men.headD 0 < 1/2
      · rw [if_pos ⟨hq2, hx⟩]
        by_cases hl : men.getLast?.getD 0 > 1/2
        · rw [if_pos hl]
          dsimp only
          split_ifs <;> linarith [hhead.1, hb]
        · rw [if_neg hl]
          dsimp only
          split_ifs <;> linarith [hhead.1, hb]
      · rw [if_neg (by rintro ⟨-, hc⟩; exact hx hc)]
        norm_num
    · rw [if_neg (by rintro ⟨hc, -⟩; exact hq2 hc)]
      norm_num

/-- With the pore invasion fraction inside the unit interval, the dv_max
policy never returns a negative volume fraction. -/
theorem set_dv_max_nonneg (frac q : ℚ) (h0 : 0 ≤ frac) (h1 : frac ≤ 1) :
    0 ≤ set_dv_max frac q := by
  unfold set_dv_max
  split_ifs <;> linarith

/-- The second loop of _calculate_dt cannot raise a zero dt. -/
theorem dt_step_throat_zero (net : VDNet) (st : VDState) (th : ℕ)
    (hmen : ∀ m ∈ st.menisci th, 0 ≤ m ∧ m ≤ 1)
    (hlen : 0 ≤ net.th_length th) :
    dt_step_throat net st 0 th = 0 := by
  have hd : 0 ≤ set_dx_max (throat_q net st th) (st.menisci th) *
      net.th_length th / |throat_q net st th / net.th_area th| :=
    div_nonneg (mul_nonneg (set_dx_max_nonneg _ _ hmen) hlen) (abs_nonneg _)
  unfold dt_step_throat
  dsimp only
  split_ifs <;> first | rfl | linarith

/-- The third loop of _calculate_dt cannot raise a zero dt. -/
theorem dt_step_pore_zero (net : VDNet) (st : VDState) (p : ℕ)
    (hv : 0 ≤ net.p_volume p) (h0 : 0 ≤ st.p_inv_frac p)
    (h1 : st.p_inv_frac p ≤ 1) :
    dt_step_pore net st 0 p = 0 := by
  have hd : 0 ≤ set_dv_max (st.p_inv_frac p) (pore_qsum net st p) *
      net.p_volume p / |pore_qsum net st p| :=
    div_nonneg (mul_nonneg (set_dv_max_nonneg _ _ h0 h1) hv) (abs_nonneg _)
  unfold dt_step_pore
  dsimp only
  split_ifs <;> first | rfl | linarith

/-- The head of a zero-shifted meniscus list is unchanged. -/
theorem headD_shift_zero (men : List ℚ) :
    (shift_menisci 0 men).headD 0 = men.headD 0 := by
  rcases men with _ | ⟨a, l⟩ <;> simp [shift_menisci]

/-- Unfolding of the per-throat advance for a zero-volume throat at
dt = 0: the shift is trivial and the boundary handling is applied to the
output of the degenerate rule, with the velocity recomputed from the
collapse displacement. -/
theorem advance_throat_zero_vol (net : VDNet) (st : VDState) (th : ℕ)
    (thq : ℚ) (hvol : net.th_volume th = 0) :
    advance_throat net st th thq 0 =
      advance_boundary (net.conns th).1 (net.conns th).2 st.sat_tol
        (st.sup_fact th)
        (advance_zero_vol_throat net st th thq).1
        (advance_zero_vol_throat net st th thq).2
        (-((advance_zero_vol_throat net st th thq).1.headD 0 -
            (st.menisci th).headD 0)) := by
  unfold advance_throat
  dsimp only
  rw [mul_zero, zero_div]
  simp only [if_pos hvol]
  rw [headD_shift_zero]

/-- The boundary handling leaves the fraction unchanged on the singleton
list at position 1 when the velocity is not positive: the deletion
branch contributes a zero overshoot adjustment. -/
theorem advance_boundary_one_frac (p1 p2 : ℕ) (satTol sf frac2 v2 : ℚ)
    (hv : v2 ≤ 0) :
    (advance_boundary p1 p2 satTol sf [1] frac2 v2).th_inv_frac = frac2 := by
  unfold advance_boundary
  split_ifs with hc1 hc2
  · dsimp only
    norm_num
  · exact absurd hc2.2 (not_lt.mpr hv)
  · rfl

/-- The boundary handling leaves the fraction unchanged on the singleton
list at position 0 when the velocity is not negative. -/
theorem advance_boundary_zero_frac (p1 p2 : ℕ) (satTol sf frac2 v2 : ℚ)
    (hv : 0 ≤ v2) :
    (advance_boundary p1 p2 satTol sf [0] frac2 v2).th_inv_frac = frac2 := by
  unfold advance_boundary
  split_ifs with hc1 hc2
  · exact absurd hc1.2 (not_lt.mpr hv)
  · dsimp only
    norm_num
  · rfl

/-- With a positive saturation tolerance and strictly negative velocity,
the boundary handling deletes the meniscus at position 1 and clears the
contested flag. -/
theorem advance_boundary_one_del (p1 p2 : ℕ) (satTol sf frac2 v2 : ℚ)
    (hst : 0 < satTol) (hv : v2 < 0) :
    (advance_boundary p1 p2 satTol sf [1] frac2 v2).menisci = [] ∧
    (advance_boundary p1 p2 satTol sf [1] frac2 v2).th_contested = false := by
  unfold advance_boundary
  rw [if_pos ⟨by norm_num; linarith, hv⟩]
  exact ⟨rfl, rfl⟩

/-- With a positive saturation tolerance and strictly positive velocity,
the boundary handling deletes the meniscus at position 0, flips the
supply factor and clears the contested flag. -/
theorem advance_boundary_zero_del (p1 p2 : ℕ) (satTol sf frac2 v2 : ℚ)
    (hst : 0 < satTol) (hv : 0 < v2) :
    (advance_boundary p1 p2 satTol sf [0] frac2 v2).menisci = [] ∧
    (advance_boundary p1 p2 satTol sf [0] frac2 v2).th_contested = false := by
  unfold advance_boundary
  rw [if_neg (by rintro ⟨-, hlt⟩; exact absurd hlt (not_lt.mpr (le_of_lt hv))),
    if_pos ⟨by norm_num; linarith, hv⟩]
  exact ⟨rfl, rfl⟩

/-- C3 amended: for a contested zero-volume throat, the computed step dt
is forced to zero; the degenerate rule collapses the meniscus list to
the single boundary position nearest the downstream pore (1 when the
flow runs from the lower-indexed pore, 0 otherwise) and sets the throat
invasion fraction to 1 exactly when the upstream pore is flagged
invaded, a value the rest of the advance step preserves; but when the
collapse strictly moved the meniscus, the boundary rule of the same pass
then deletes it, so the throat ends the advance phase with an empty
meniscus list and its contested flag cleared. -/
theorem zero_vol_throat_rule (net : VDNet) (st : VDState) (th : ℕ) (thq : ℚ)
    (hth : th < net.Nt)
    (hcon : st.th_contested th = true)
    (hvol : net.th_volume th = 0)
    (hmen : ∀ t ∈ List.range net.Nt, ∀ m ∈ st.menisci t, 0 ≤ m ∧ m ≤ 1)
    (hlen : ∀ t ∈ List.range net.Nt, 0 ≤ net.th_length t)
    (hpore : ∀ p ∈ List.range net.Np,
      0 ≤ net.p_volume p ∧ 0 ≤ st.p_inv_frac p ∧ st.p_inv_frac p ≤ 1) :
    calculate_dt net st = 0 ∧
    (advance_zero_vol_throat net st th thq).1
        = [if thq < 0 then (1 : ℚ) else 0] ∧
    (advance_zero_vol_throat net st th thq).2
        = (if st.p_invaded
              (if thq < 0 then (net.conns th).1 else (net.conns th).2)
            then (1 : ℚ) else 0) ∧
    (advance_throat net st th thq 0).th_inv_frac
        = (if st.p_invaded
              (if thq < 0 then (net.conns th).1 else (net.conns th).2)
            then (1 : ℚ) else 0) ∧
    (0 < st.sat_tol → thq < 0 → (st.menisci th).headD 0 < 1 →
      (advance_throat net st th thq 0).menisci = [] ∧
      (advance_throat net st th thq 0).th_contested = false) ∧
    (0 < st.sat_tol → 0 < thq → 0 < (st.menisci th).headD 0 →
      (advance_throat net st th thq 0).menisci = [] ∧
      (advance_throat net st th thq 0).th_contested = false) := by
  have hm : 0 ≤ (st.menisci th).headD 0 ∧ (st.menisci th).headD 0 ≤ 1 := by
    rcases hml : st.menisci th with _ | ⟨a, l⟩
    · norm_num
    · have := hmen th (List.mem_range.mpr hth) a
        (by rw [hml]; exact List.mem_cons_self a l)
      simpa using this
  have hmem : th ∈ contested_throats net st := by
    unfold contested_throats
    exact List.mem_filter.mpr ⟨List.mem_range.mpr hth, hcon⟩
  have hthr : ∀ t ∈ contested_throats net st, t ∈ List.range net.Nt := by
    intro t ht
    unfold contested_throats at ht
    exact List.mem_of_mem_filter ht
  have hpr : ∀ p ∈ contested_pores net st, p ∈ List.range net.Np := by
    intro p hp
    unfold contested_pores at hp
    exact List.mem_of_mem_filter hp
  refine ⟨?_, ?_, ?_, ?_, ?_, ?_⟩
  · unfold calculate_dt
    dsimp only
    rw [foldl_zero_vol_eq_zero net (contested_throats net st) _ th hmem hvol]
    rw [foldl_zero_keep _ _ (fun t ht => dt_step_throat_zero net st t
      (hmen t (hthr t ht)) (hlen t (hthr t ht)))]
    exact foldl_zero_keep _ _ (fun p hp => dt_step_pore_zero net st p
      (hpore p (hpr p hp)).1
      (hpore p (hpr p hp)).2.1
      (hpore p (hpr p hp)).2.2)
  · unfold advance_zero_vol_throat
    dsimp only
    split_ifs <;> rfl
  · unfold advance_zero_vol_throat
    dsimp only
    split_ifs <;> rfl
  · rw [advance_throat_zero_vol net st th thq hvol]
    rcases lt_or_ge thq 0 with hq | hq
    · have e1 : advance_zero_vol_throat net st th thq
          = ([1], if st.p_invaded (net.conns th).1 then 1 else 0) := by
        unfold advance_zero_vol_throat
        dsimp only
        rw [if_pos hq]
      rw [e1, if_pos hq]
      dsimp only
      exact advance_boundary_one_frac _ _ _ _ _ _ (by
        simp only [List.headD_cons]
        linarith [hm.2])
    · have e1 : advance_zero_vol_throat net st th thq
          = ([0], if st.p_invaded (net.conns th).2 then 1 else 0) := by
        unfold advance_zero_vol_throat
        dsimp only
        rw [if_neg (not_lt.mpr hq)]
      rw [e1, if_neg (not_lt.mpr hq)]
      dsimp only
      exact advance_boundary_zero_frac _ _ _ _ _ _ (by
        simp only [List.headD_cons]
        linarith [hm.1])
  · intro hst hq hm1
    rw [advance_throat_zero_vol net st th thq hvol]
    have e1 : advance_zero_vol_throat net st th thq
        = ([1], if st.p_invaded (net.conns th).1 then 1 else 0) := by
      unfold advance_zero_vol_throat
      dsimp only
      rw [if_pos hq]
    rw [e1]
    dsimp only
    exact advance_boundary_one_del _ _ _ _ _ _ hst (by
      simp only [List.headD_cons]
      linarith)
  · intro hst hq hm1
    rw [advance_throat_zero_vol net st th thq hvol]
    have e1 : advance_zero_vol_throat net st th thq
        = ([0], if st.p_invaded (net.conns th).2 then 1 else 0) := by
      unfold advance_zero_vol_throat
      dsimp only
      rw [if_neg (not_lt.mpr (le_of_lt hq))]
    rw [e1]
    dsimp only
    exact advance_boundary_zero_del _ _ _ _ _ _ hst (by
      simp only [List.headD_cons]
      linarith)

/-- Evaluation of the amended zero-volume rule on the concrete fixture,
through the theorem: the forced dt is zero. -/
theorem zero_vol_throat_rule_witness : calculate_dt netW stW = 0 :=
  (zero_vol_throat_rule netW stW 0 (-1) (by norm_num [netW]) rfl rfl
    (by intro t ht m hm; simp [stW] at hm; subst hm; norm_num)
    (by intro t ht; norm_num [netW])
    (by intro p hp; norm_num [netW, stW])).1

/-- C3 counterexample: on the fixture network the single throat is
contested with zero volume, the computed flow is -1 (from pore 0 toward
pore 1) and dt is forced to 0, yet after the per-throat advance the
meniscus list is empty rather than the claimed single boundary position
nearest pore 1. -/
theorem zero_vol_menisci_removed_counterexample :
    calculate_dt netW stW = 0 ∧
    throat_q netW stW 0 = -1 ∧
    (advance_throat netW stW 0 (-1) 0).menisci = [] ∧
    (advance_throat netW stW 0 (-1) 0).menisci
      ≠ [if (-1 : ℚ) < 0 then (1 : ℚ) else 0] := by
  have hc3 : (advance_throat netW stW 0 (-1) 0).menisci = [] := by
    rw [advance_throat_zero_vol netW stW 0 (-1) rfl]
    have e1 : advance_zero_vol_throat netW stW 0 (-1) = ([1], 1) := by
      unfold advance_zero_vol_throat
      dsimp only
      norm_num [stW, netW]
    rw [e1]
    dsimp only
    exact (advance_boundary_one_del _ _ _ _ _ _ (by norm_num [stW]) (by
      simp only [List.headD_cons, stW]
      norm_num)).1
  refine ⟨?_, ?_, hc3, by rw [hc3]; simp⟩
  · unfold calculate_dt
    dsimp only
    rw [foldl_zero_vol_eq_zero netW (contested_throats netW stW) _ 0 (by decide) rfl]
    rw [foldl_zero_keep _ _ (fun t ht => dt_step_throat_zero netW stW t
      (by intro m hm; simp [stW] at hm; subst hm; norm_num)
      (by norm_num [netW]))]
    exact foldl_zero_keep _ _ (fun p hp => dt_step_pore_zero netW stW p
      (by norm_num [netW]) (by norm_num [stW]) (by norm_num [stW]))
  · unfold throat_q sum_fpcap get_supply_fact
    norm_num [netW, stW, fpcap_walk]

/-- Recording never changes the physics fields. -/
theorem btRecord_phys (satTol : ℚ) (s : BTState) :
    (btRecord satTol s).phys = s.phys := by
  unfold btRecord
  split <;> rfl

/-- One loop iteration applies exactly one physics update to the physics
fields. -/
theorem vdIter_phys (phys : BTPhys → BTPhys) (satTol : ℚ) (s : BTState) :
    (vdIter phys satTol s).phys = phys s.phys := by
  unfold vdIter
  dsimp only
  rw [btRecord_phys]
  rfl

/-- The accumulated time along the trace stays nonnegative when the
physics preserves nonnegative time. -/
theorem btTrace_time_nonneg (phys : BTPhys → BTPhys) (satTol : ℚ)
    (s0 : BTState)
    (hphys : ∀ p : BTPhys, 0 ≤ p.total_time → 0 ≤ (phys p).total_time)
    (h0 : 0 ≤ s0.phys.total_time) (n : ℕ) :
    0 ≤ (btTrace phys satTol s0 n).phys.total_time := by
  induction n with
  | zero => exact h0
  | succ k ih =>
    have e : btTrace phys satTol s0 (k + 1)
        = vdIter phys satTol (btTrace phys satTol s0 k) := by
      unfold btTrace
      rw [Function.iterate_succ_apply']
    rw [e, vdIter_phys]
    exact hphys _ ih

/-- Once the breakthrough time is nonnegative, an iteration cannot record
again and the stored time stays nonnegative. -/
theorem vdIter_btt_nonneg (phys : BTPhys → BTPhys) (satTol : ℚ)
    (s : BTState) (h : 0 ≤ s.break_through_time) :
    0 ≤ (vdIter phys satTol s).break_through_time := by
  unfold vdIter
  have hrec : recordsAt satTol (applyPhys phys s) = false := by
    unfold recordsAt applyPhys
    dsimp only
    rw [decide_eq_false (not_lt.mpr h), Bool.and_false]
  unfold btRecord
  rw [hrec]
  dsimp only
  exact h

/-- Nonnegativity of the breakthrough time is preserved along the trace
from any point on. -/
theorem btTrace_btt_nonneg_from (phys : BTPhys → BTPhys) (satTol : ℚ)
    (s0 : BTState) (m : ℕ)
    (h : 0 ≤ (btTrace phys satTol s0 m).break_through_time) :
    ∀ n, m ≤ n → 0 ≤ (btTrace phys satTol s0 n).break_through_time := by
  intro n hmn
  obtain ⟨d, rfl⟩ := Nat.exists_eq_add_of_le hmn
  induction d with
  | zero => simpa using h
  | succ e ih =>
    have hrw : btTrace phys satTol s0 (m + (e + 1))
        = vdIter phys satTol (btTrace phys satTol s0 (m + e)) := by
      unfold btTrace
      rw [show m + (e + 1) = (m + e) + 1 by omega, Function.iterate_succ_apply']
    rw [hrw]
    exact vdIter_btt_nonneg _ _ _ (ih (by omega))

/-- A recording iteration stores the nonnegative accumulated time. -/
theorem recAtStep_btt (phys : BTPhys → BTPhys) (satTol : ℚ) (s0 : BTState)
    (hphys : ∀ p : BTPhys, 0 ≤ p.total_time → 0 ≤ (phys p).total_time)
    (h0 : 0 ≤ s0.phys.total_time) (i : ℕ)
    (hrec : recAtStep phys satTol s0 i = true) :
    0 ≤ (btTrace phys satTol s0 (i + 1)).break_through_time := by
  have e : btTrace phys satTol s0 (i + 1)
      = vdIter phys satTol (btTrace phys satTol s0 i) := by
    unfold btTrace
    rw [Function.iterate_succ_apply']
  rw [e]
  unfold recAtStep at hrec
  unfold vdIter btRecord
  rw [hrec]
  dsimp only
  exact hphys _ (btTrace_time_nonneg phys satTol s0 hphys h0 i)

/-- C7: along any run of the outer loop, breakthrough is recorded at most
once; a recording iteration requires some outlet pore above 1 - sat_tol;
and recording does not change the loop exit decision, which only reads
the outflow rate and the step count. -/
theorem breakthrough_recorded_once (phys : BTPhys → BTPhys)
    (satTol injRate : ℚ) (maxSteps : ℕ) (s0 : BTState)
    (hphys : ∀ p : BTPhys, 0 ≤ p.total_time → 0 ≤ (phys p).total_time)
    (h0 : 0 ≤ s0.phys.total_time) :
    (∀ i j : ℕ, i < j →
      ¬(recAtStep phys satTol s0 i = true ∧
        recAtStep phys satTol s0 j = true)) ∧
    (∀ s : BTState, recordsAt satTol s = true →
      breakthroughTest satTol s = true) ∧
    (∀ s : BTState, stopCheck injRate maxSteps (btRecord satTol s)
        = stopCheck injRate maxSteps s) := by
  refine ⟨?_, ?_, ?_⟩
  · rintro i j hij ⟨hi, hj⟩
    have h1 : 0 ≤ (btTrace phys satTol s0 (i + 1)).break_through_time :=
      recAtStep_btt phys satTol s0 hphys h0 i hi
    have h2 : 0 ≤ (btTrace phys satTol s0 j).break_through_time :=
      btTrace_btt_nonneg_from phys satTol s0 (i + 1) h1 j (by omega)
    unfold recAtStep recordsAt at hj
    rw [Bool.and_eq_true] at hj
    have h3 := of_decide_eq_true hj.2
    unfold applyPhys at h3
    dsimp only at h3
    linarith
  · intro s hs
    unfold recordsAt at hs
    rw [Bool.and_eq_true] at hs
    exact hs.1
  · intro s
    unfold stopCheck btRecord
    split <;> rfl

/-- Evaluation of the loop exit decision on a concrete state, through the
theorem: recording leaves it unchanged. -/
theorem breakthrough_recorded_once_witness :
    stopCheck 1 5 (btRecord (1/2) ⟨⟨0, [1], 0⟩, 0, -1, 0⟩)
      = stopCheck 1 5 ⟨⟨0, [1], 0⟩, 0, -1, 0⟩ :=
  (breakthrough_recorded_once id (1/2) 1 5 ⟨⟨0, [1], 0⟩, 0, -1, 0⟩
    (fun _ h => h) (by norm_num)).2.2 ⟨⟨0, [1], 0⟩, 0, -1, 0⟩

end ViscousDrainage
